import Mathlib

/-!
Verification of the to-do list widget (Vue single-file component).

The component keeps a reactive array `todos : Todo[]`; every mutation is a
plain function on that array.  We embed the array as `List Todo` and each
handler as a pure function.  Nondeterministic inputs of the environment
(`Date.now()`, `uid()`, the DOM input's current value) become explicit
parameters.  `find`-then-mutate-in-place is embedded as `updateFirst`,
which rewrites the first element satisfying the predicate and leaves the
rest of the list untouched, exactly as the aliased in-place mutation does.
-/

namespace TodoApp

/-- The `Todo` record of the component (`type Todo = {...}`).  The optional
`editing?: boolean` field is modelled as a `Bool`: every task the code ever
builds sets it explicitly (`editing: false` on add and hydrate). -/
structure Todo where
  id : String
  title : String
  completed : Bool
  createdAt : Nat
  updatedAt : Nat
  editing : Bool
deriving Repr, DecidableEq

/-- The durable projection written to storage by the `watch` callback:
`{ id, title, completed, createdAt, updatedAt }` — by construction it has
exactly these five fields and no `editing` field. -/
structure StoredTodo where
  id : String
  title : String
  completed : Bool
  createdAt : Nat
  updatedAt : Nat
deriving Repr, DecidableEq

/-- JS `String.prototype.trim`: strip leading and trailing whitespace.
Written over the character list so the kernel can evaluate it on concrete
strings (Lean's own `String.trim` computes through `Substring` auxiliaries
that do not reduce definitionally). -/
def jsTrim (s : String) : String :=
  ⟨((s.data.dropWhile Char.isWhitespace).reverse.dropWhile Char.isWhitespace).reverse⟩

/-- Rewrite the first element satisfying `p` by `f`; the embedding of
`todos.find(...)` followed by in-place mutation of the found record
(`if (!t) return` when nothing matches). -/
def updateFirst (p : Todo → Bool) (f : Todo → Todo) : List Todo → List Todo
  | [] => []
  | t :: ts => if p t then f t :: ts else t :: updateFirst p f ts

/-- `addTodo`: trims the input box's value; whitespace-only input is a
no-op, otherwise a fresh task (`completed: false`, `createdAt = updatedAt =
now`) is `unshift`ed onto the front.  The fresh `uid()` and `Date.now()`
are the parameters `id` and `now`. -/
def addTodo (newTitle : String) (id : String) (now : Nat) (todos : List Todo) : List Todo :=
  let title := jsTrim newTitle
  if title = "" then todos
  else
    { id := id, title := title, completed := false,
      createdAt := now, updatedAt := now, editing := false } :: todos

/-- `toggleTodo(id)`: finds the first task with that id and flips
`completed`, setting `updatedAt := Date.now()` (the parameter `now`). -/
def toggleTodo (id : String) (now : Nat) (todos : List Todo) : List Todo :=
  updateFirst (fun t => t.id == id)
    (fun t => { t with completed := !t.completed, updatedAt := now }) todos

/-- `deleteTodo(id)`: `findIndex` then `splice(idx, 1)` when `idx >= 0`.
`List.findIdx` returns the length when nothing matches, which is exactly
the JS `-1` guard `idx >= 0` expressed as `idx < todos.length`. -/
def deleteTodo (id : String) (todos : List Todo) : List Todo :=
  let idx := todos.findIdx (fun t => t.id == id)
  if idx < todos.length then todos.eraseIdx idx else todos

/-- `startEdit(id)`: sets `editing := true` on the first matching task.
(The focus/select side effect is presentation-layer and not modelled.) -/
def startEdit (id : String) (todos : List Todo) : List Todo :=
  updateFirst (fun t => t.id == id) (fun t => { t with editing := true }) todos

/-- The per-task body of `stopEdit`: when committing, trim
`input?.value ?? t.title`; a non-empty result replaces the title and bumps
`updatedAt`; the editing flag is cleared in every case. -/
def stopEditTask (commit : Bool) (inputVal : Option String) (now : Nat) (t : Todo) : Todo :=
  if commit then
    let val := jsTrim (inputVal.getD t.title)
    if val ≠ "" then { t with title := val, updatedAt := now, editing := false }
    else { t with editing := false }
  else { t with editing := false }

/-- `stopEdit(id, commit)`: finds the first task with the id and applies
`stopEditTask`; no-op when the id is absent. -/
def stopEdit (id : String) (commit : Bool) (inputVal : Option String) (now : Nat)
    (todos : List Todo) : List Todo :=
  updateFirst (fun t => t.id == id) (stopEditTask commit inputVal now) todos

/-- The spec's `commitEdit(id, rawValue)`: `stopEdit` with `commit = true`
and the DOM input holding `rawValue`. -/
def commitEdit (id : String) (rawValue : String) (now : Nat) (todos : List Todo) : List Todo :=
  stopEdit id true (some rawValue) now todos

/-- The spec's `cancelEdit(id)`: `stopEdit` with `commit = false` (the
clock is never read on this path, so the `now` argument is irrelevant). -/
def cancelEdit (id : String) (todos : List Todo) : List Todo :=
  stopEdit id false none 0 todos

/-- One step of the `clearCompleted` loop body at index `i`:
`if (todos[i].completed) todos.splice(i, 1)`. -/
def clearStep (todos : List Todo) (i : Nat) : List Todo :=
  match todos[i]? with
  | some t => if t.completed then todos.eraseIdx i else todos
  | none => todos

/-- The backwards loop `for (let i = todos.length - 1; i >= 0; i--)`:
`clearLoop todos (i+1)` handles index `i` and recurses downwards. -/
def clearLoop : List Todo → Nat → List Todo
  | todos, 0 => todos
  | todos, i + 1 => clearLoop (clearStep todos i) i

/-- `clearCompleted()`: run the loop from the last index down. -/
def clearCompleted (todos : List Todo) : List Todo :=
  clearLoop todos todos.length

/-- The filter selector `ref<'all' | 'active' | 'completed'>`. -/
inductive Filter
  | all
  | active
  | completed
deriving Repr, DecidableEq

/-- The `filtered` computed view. -/
def filtered (f : Filter) (todos : List Todo) : List Todo :=
  match f with
  | .active => todos.filter (fun t => !t.completed)
  | .completed => todos.filter (fun t => t.completed)
  | .all => todos

/-- The `remainingCount` computed view. -/
def remainingCount (todos : List Todo) : Nat :=
  (todos.filter (fun t => !t.completed)).length

/-- The `completedCount` computed view. -/
def completedCount (todos : List Todo) : Nat :=
  (todos.filter (fun t => t.completed)).length

/-- The durable projection of one task, as built by the `watch` source
`todos.map(t => ({ id, title, completed, createdAt, updatedAt }))`. -/
def persistTodo (t : Todo) : StoredTodo :=
  { id := t.id, title := t.title, completed := t.completed,
    createdAt := t.createdAt, updatedAt := t.updatedAt }

/-- The snapshot serialized to the storage key on every mutation. -/
def persistSnapshot (todos : List Todo) : List StoredTodo :=
  todos.map persistTodo

/-- Hydration of one stored record on load: `{ ...t, editing: false }`. -/
def hydrateTodo (s : StoredTodo) : Todo :=
  { id := s.id, title := s.title, completed := s.completed,
    createdAt := s.createdAt, updatedAt := s.updatedAt, editing := false }

/-- What `JSON.parse` can yield for a present raw string: a throw
(malformed), some non-array JSON value, or an array of records. -/
inductive RawValue
  | malformed
  | nonArray
  | arr (data : List StoredTodo)
deriving Repr, DecidableEq

/-- The state of the storage key on load: absent (`getItem` returned
null) or present with a raw value. -/
inductive Stored
  | absent
  | value (v : RawValue)
deriving Repr, DecidableEq

/-- The parsed JSON shapes the load path inspects with `Array.isArray`. -/
inductive ParsedJson
  | nonArray
  | arr (data : List StoredTodo)
deriving Repr, DecidableEq

/-- `JSON.parse`: throws (`Except.error`) on malformed input. -/
def jsonParse : RawValue → Except String ParsedJson
  | .malformed => .error "SyntaxError"
  | .nonArray => .ok .nonArray
  | .arr d => .ok (.arr d)

/-- The body of the `onMounted` `try` block: read the key; if present,
parse; push hydrated records only when `Array.isArray` holds.  A parse
throw escapes as `Except.error`. -/
def loadBody (s : Stored) : Except String (List Todo) :=
  match s with
  | .absent => .ok []
  | .value v =>
    match jsonParse v with
    | .error e => .error e
    | .ok .nonArray => .ok []
    | .ok (.arr d) => .ok (d.map hydrateTodo)

/-- The whole `onMounted` handler: the `catch` turns any parse throw into
a `console.warn` (the `Bool` component) and an untouched empty collection;
the result type shows no exception ever escapes to the caller. -/
def loadTodos (s : Stored) : List Todo × Bool :=
  match loadBody s with
  | .ok l => (l, false)
  | .error _ => ([], true)

/-- Pointwise agreement on the five durable fields (everything except the
transient `editing` flag). -/
def durableEq (a b : Todo) : Prop :=
  a.id = b.id ∧ a.title = b.title ∧ a.completed = b.completed ∧
    a.createdAt = b.createdAt ∧ a.updatedAt = b.updatedAt

/-! ## Helper lemmas -/

theorem updateFirst_no_match (p : Todo → Bool) (f : Todo → Todo) (l : List Todo)
    (h : ∀ u ∈ l, p u = false) : updateFirst p f l = l := by
  induction l with
  | nil => rfl
  | cons t ts ih =>
    have ht := h t (by simp)
    simp only [updateFirst, ht, Bool.false_eq_true, if_false, List.cons.injEq, true_and]
    exact ih fun u hu => h u (by simp [hu])

theorem updateFirst_append (p : Todo → Bool) (f : Todo → Todo) (l1 l2 : List Todo) (t : Todo)
    (h1 : ∀ u ∈ l1, p u = false) (ht : p t = true) :
    updateFirst p f (l1 ++ t :: l2) = l1 ++ f t :: l2 := by
  induction l1 with
  | nil => simp [updateFirst, ht]
  | cons a l ih =>
    have ha := h1 a (by simp)
    simp only [List.cons_append, updateFirst, ha, Bool.false_eq_true, if_false,
      List.cons.injEq, true_and]
    exact ih fun u hu => h1 u (by simp [hu])

theorem findIdx_no_match (p : Todo → Bool) (l : List Todo)
    (h : ∀ u ∈ l, p u = false) : l.findIdx p = l.length := by
  induction l with
  | nil => rfl
  | cons a l ih =>
    have ha := h a (by simp)
    simp only [List.findIdx_cons, ha, cond_false, List.length_cons]
    rw [ih fun u hu => h u (by simp [hu])]

theorem findIdx_append_first (p : Todo → Bool) (l1 l2 : List Todo) (t : Todo)
    (h1 : ∀ u ∈ l1, p u = false) (ht : p t = true) :
    (l1 ++ t :: l2).findIdx p = l1.length := by
  induction l1 with
  | nil => simp [List.findIdx_cons, ht]
  | cons a l ih =>
    have ha := h1 a (by simp)
    simp only [List.cons_append, List.findIdx_cons, ha, cond_false, List.length_cons]
    rw [ih fun u hu => h1 u (by simp [hu])]

theorem eraseIdx_append_middle (l1 l2 : List Todo) (t : Todo) :
    (l1 ++ t :: l2).eraseIdx l1.length = l1 ++ l2 := by
  induction l1 with
  | nil => rfl
  | cons a l ih => simp [List.eraseIdx_cons_succ, ih]

theorem clearLoop_eq (i : Nat) (todos : List Todo) (h : i ≤ todos.length) :
    clearLoop todos i = (todos.take i).filter (fun t => !t.completed) ++ todos.drop i := by
  induction i generalizing todos with
  | zero => simp [clearLoop]
  | succ i ih =>
    have hi : i < todos.length := h
    have hget : todos[i]? = some todos[i] := List.getElem?_eq_getElem hi
    unfold clearLoop clearStep
    rw [hget]
    dsimp only
    have htakelen : (todos.take i).length = i := by simp; omega
    by_cases hc : todos[i].completed
    · rw [if_pos hc]
      have hlen : i ≤ (todos.eraseIdx i).length := by
        rw [List.length_eraseIdx, if_pos hi]; omega
      rw [ih _ hlen, List.eraseIdx_eq_take_drop_succ]
      have htake : (todos.take i ++ todos.drop (i + 1)).take i = todos.take i := by
        rw [List.take_append_of_le_length (le_of_eq htakelen.symm), List.take_take]
        simp
      have hdrop : (todos.take i ++ todos.drop (i + 1)).drop i = todos.drop (i + 1) := by
        rw [List.drop_left' htakelen]
      have hfil : (todos.take (i + 1)).filter (fun t => !t.completed)
          = (todos.take i).filter (fun t => !t.completed) := by
        rw [List.take_succ, hget]
        simp only [Option.toList_some, List.filter_append, List.filter_cons, List.filter_nil]
        rw [show (!todos[i].completed) = false by simp [hc]]
        simp
      rw [htake, hdrop, hfil]
    · rw [if_neg hc]
      rw [ih _ (le_of_lt hi)]
      rw [List.take_succ, hget, List.drop_eq_getElem_cons hi]
      simp only [Option.toList_some, List.filter_append, List.filter_cons, List.filter_nil]
      have : (!todos[i].completed) = true := by simp [hc]
      rw [this]
      simp

theorem stopEditTask_frame (inputVal : Option String) (now : Nat) (t : Todo) :
    (stopEditTask true inputVal now t).id = t.id ∧
    (stopEditTask true inputVal now t).completed = t.completed ∧
    (stopEditTask true inputVal now t).createdAt = t.createdAt := by
  unfold stopEditTask
  dsimp only
  by_cases h : jsTrim (inputVal.getD t.title) ≠ ""
  · rw [if_pos h]; exact ⟨rfl, rfl, rfl⟩
  · rw [if_neg h]; exact ⟨rfl, rfl, rfl⟩

/-! ## Claims -/

/-- C1: `addTodo` trims its input; a whitespace-only input leaves the
collection unchanged; otherwise a task with the trimmed title, `completed
= false` and `createdAt = updatedAt = now` is inserted at the front, so
adding "Buy milk" then "Call mom" makes the first two titles
["Call mom", "Buy milk"] (newest first). -/
theorem addTodo_spec (s id : String) (now : Nat) (todos : List Todo) :
    (jsTrim s = "" → addTodo s id now todos = todos) ∧
    (jsTrim s ≠ "" →
      addTodo s id now todos =
        { id := id, title := jsTrim s, completed := false,
          createdAt := now, updatedAt := now, editing := false } :: todos) ∧
    (∀ id1 id2 : String, ∀ now1 now2 : Nat,
      ((addTodo "Call mom" id2 now2 (addTodo "Buy milk" id1 now1 todos)).map
        Todo.title).take 2 = ["Call mom", "Buy milk"]) := by
  have hempty : ∀ (s id : String) (now : Nat) (l : List Todo),
      jsTrim s = "" → addTodo s id now l = l := by
    intro s id now l h
    simp [addTodo, h]
  have hcons : ∀ (s id : String) (now : Nat) (l : List Todo), jsTrim s ≠ "" →
      addTodo s id now l =
        { id := id, title := jsTrim s, completed := false,
          createdAt := now, updatedAt := now, editing := false } :: l := by
    intro s id now l h
    simp [addTodo, h]
  refine ⟨hempty s id now todos, hcons s id now todos, ?_⟩
  intro id1 id2 now1 now2
  rw [hcons "Buy milk" id1 now1 todos (by decide),
    hcons "Call mom" id2 now2 _ (by decide)]
  simp only [List.map_cons, List.take_succ_cons, List.take_zero]
  rw [show jsTrim "Call mom" = "Call mom" from by decide,
    show jsTrim "Buy milk" = "Buy milk" from by decide]

/-- C1 witness: the three behaviours at concrete inputs. -/
theorem addTodo_spec_witness :
    addTodo "   " "a" 1 [] = [] ∧
    addTodo " Buy milk " "a" 1 [] =
      [{ id := "a", title := "Buy milk", completed := false,
         createdAt := 1, updatedAt := 1, editing := false }] ∧
    ((addTodo "Call mom" "b" 2 (addTodo "Buy milk" "a" 1 [])).map
      Todo.title).take 2 = ["Call mom", "Buy milk"] := by
  refine ⟨(addTodo_spec "   " "a" 1 []).1 (by decide), ?_,
    (addTodo_spec "x" "x" 0 []).2.2 "a" "b" 1 2⟩
  rw [(addTodo_spec " Buy milk " "a" 1 []).2.1 (by decide)]
  decide

/-- C2: for a task in the collection, `commitEdit` trims the raw value; an
empty trim leaves the title (and `updatedAt`) unchanged, a non-empty trim
replaces the title with it and bumps `updatedAt`; the editing flag is
cleared in both cases. -/
theorem commitEdit_spec (l1 l2 : List Todo) (t : Todo) (id rawValue : String) (now : Nat)
    (h1 : ∀ u ∈ l1, (u.id == id) = false) (ht : t.id = id) :
    (jsTrim rawValue = "" →
      commitEdit id rawValue now (l1 ++ t :: l2) =
        l1 ++ { t with editing := false } :: l2) ∧
    (jsTrim rawValue ≠ "" →
      commitEdit id rawValue now (l1 ++ t :: l2) =
        l1 ++ { t with title := jsTrim rawValue, updatedAt := now, editing := false } :: l2) := by
  have htb : (t.id == id) = true := by simp [ht]
  constructor
  · intro h
    unfold commitEdit stopEdit
    rw [updateFirst_append _ _ _ _ _ h1 htb]
    congr 2
    simp [stopEditTask, h]
  · intro h
    unfold commitEdit stopEdit
    rw [updateFirst_append _ _ _ _ _ h1 htb]
    congr 2
    simp [stopEditTask, h]

/-- C2 witness: discarding an all-blank edit keeps the old title; committing
"  new title  " stores "new title" and bumps `updatedAt`. -/
theorem commitEdit_spec_witness :
    commitEdit "a" "   " 5
        [{ id := "a", title := "Old", completed := false,
           createdAt := 0, updatedAt := 0, editing := true }] =
      [{ id := "a", title := "Old", completed := false,
         createdAt := 0, updatedAt := 0, editing := false }] ∧
    commitEdit "a" "  new title  " 5
        [{ id := "a", title := "Old", completed := false,
           createdAt := 0, updatedAt := 0, editing := true }] =
      [{ id := "a", title := "new title", completed := false,
         createdAt := 0, updatedAt := 5, editing := false }] := by
  constructor
  · exact (commitEdit_spec [] []
      { id := "a", title := "Old", completed := false,
        createdAt := 0, updatedAt := 0, editing := true } "a" "   " 5
      (by simp) rfl).1 (by decide)
  · exact ((commitEdit_spec [] []
      { id := "a", title := "Old", completed := false,
        createdAt := 0, updatedAt := 0, editing := true } "a" "  new title  " 5
      (by simp) rfl).2 (by decide)).trans (by decide)

/-- C3: `toggleTodo` flips the first matching task's `completed` and stamps
`updatedAt` with the clock; toggling twice restores `completed` while
`updatedAt` strictly increases on each toggle (given the clock strictly
advances between the events). -/
theorem toggleTodo_spec (l1 l2 : List Todo) (t : Todo) (id : String) (now1 now2 : Nat)
    (h1 : ∀ u ∈ l1, (u.id == id) = false) (ht : t.id = id)
    (hn1 : t.updatedAt < now1) (hn2 : now1 < now2) :
    toggleTodo id now1 (l1 ++ t :: l2)
        = l1 ++ { t with completed := !t.completed, updatedAt := now1 } :: l2 ∧
    toggleTodo id now2 (toggleTodo id now1 (l1 ++ t :: l2))
        = l1 ++ { t with updatedAt := now2 } :: l2 ∧
    t.updatedAt < now1 ∧ now1 < now2 := by
  have htb : (t.id == id) = true := by simp [ht]
  have e1 : toggleTodo id now1 (l1 ++ t :: l2)
      = l1 ++ { t with completed := !t.completed, updatedAt := now1 } :: l2 := by
    unfold toggleTodo
    exact updateFirst_append _ _ _ _ _ h1 htb
  refine ⟨e1, ?_, hn1, hn2⟩
  rw [e1]
  unfold toggleTodo
  rw [updateFirst_append (fun u => u.id == id)
    (fun u => { u with completed := !u.completed, updatedAt := now2 }) l1 l2
    { t with completed := !t.completed, updatedAt := now1 } h1 htb]
  simp [Bool.not_not]

/-- C3 witness: double toggle at clock values 1 then 2. -/
theorem toggleTodo_spec_witness :
    toggleTodo "a" 1
        [{ id := "a", title := "T", completed := false,
           createdAt := 0, updatedAt := 0, editing := false }] =
      [{ id := "a", title := "T", completed := true,
         createdAt := 0, updatedAt := 1, editing := false }] ∧
    toggleTodo "a" 2 (toggleTodo "a" 1
        [{ id := "a", title := "T", completed := false,
           createdAt := 0, updatedAt := 0, editing := false }]) =
      [{ id := "a", title := "T", completed := false,
         createdAt := 0, updatedAt := 2, editing := false }] ∧
    (0 : Nat) < 1 ∧ (1 : Nat) < 2 := by
  have h := toggleTodo_spec [] []
    { id := "a", title := "T", completed := false,
      createdAt := 0, updatedAt := 0, editing := false } "a" 1 2
    (by simp) rfl (by decide) (by decide)
  exact ⟨h.1, h.2.1, h.2.2⟩

/-- C4: `clearCompleted` keeps exactly the tasks with `completed = false`,
unmodified and in their original relative order — the result is the
`filter` of the original collection, hence one of its sublists. -/
theorem clearCompleted_spec (todos : List Todo) :
    clearCompleted todos = todos.filter (fun t => !t.completed) ∧
    (clearCompleted todos).Sublist todos := by
  have e : clearCompleted todos = todos.filter (fun t => !t.completed) := by
    unfold clearCompleted
    rw [clearLoop_eq _ _ (le_refl _)]
    simp
  constructor
  · exact e
  · rw [e]
    exact List.filter_sublist _

/-- C5: persisting the durable projection and reloading it yields a
collection field-equal to the original on every durable field of every
task, in order — it is exactly the original with every transient editing
flag reset. -/
theorem persistence_roundtrip (todos : List Todo) :
    (loadTodos (.value (.arr (persistSnapshot todos)))).1
        = todos.map (fun t => { t with editing := false }) ∧
    List.Forall₂ durableEq (loadTodos (.value (.arr (persistSnapshot todos)))).1 todos := by
  have e : (loadTodos (.value (.arr (persistSnapshot todos)))).1
      = todos.map (fun t => { t with editing := false }) := by
    show (todos.map persistTodo).map hydrateTodo
        = todos.map (fun t => { t with editing := false })
    rw [List.map_map]
    rfl
  refine ⟨e, ?_⟩
  rw [e]
  clear e
  induction todos with
  | nil => exact List.Forall₂.nil
  | cons t ts ih => exact List.Forall₂.cons ⟨rfl, rfl, rfl, rfl, rfl⟩ ih

/-- C6: on load, an absent key yields the empty collection with no warning;
a malformed value yields a logged warning and the empty collection; every
parse failure is caught inside the handler (any `loadBody` error becomes
the warned empty state, never an escaping exception). -/
theorem load_error_spec :
    loadTodos .absent = ([], false) ∧
    loadTodos (.value .malformed) = ([], true) ∧
    ∀ (s : Stored) (e : String), loadBody s = .error e → loadTodos s = ([], true) := by
  refine ⟨rfl, rfl, fun s e h => ?_⟩
  unfold loadTodos
  rw [h]

/-- C6 witness: the caught parse failure at the concrete malformed input. -/
theorem load_error_spec_witness :
    loadTodos Stored.absent = ([], false) ∧
    loadBody (Stored.value .malformed) = .error "SyntaxError" ∧
    loadTodos (Stored.value .malformed) = ([], true) :=
  ⟨load_error_spec.1, rfl, load_error_spec.2.2 (Stored.value .malformed) "SyntaxError" rfl⟩

/-- C7: when no task carries the requested id, `toggleTodo`, `deleteTodo`,
`startEdit`, `commitEdit` and `cancelEdit` all return the collection
unchanged — the operations are total and silently ignore missing ids. -/
theorem missing_id_noop (id rawValue : String) (now : Nat) (todos : List Todo)
    (h : ∀ u ∈ todos, (u.id == id) = false) :
    toggleTodo id now todos = todos ∧
    deleteTodo id todos = todos ∧
    startEdit id todos = todos ∧
    commitEdit id rawValue now todos = todos ∧
    cancelEdit id todos = todos := by
  refine ⟨updateFirst_no_match _ _ _ h, ?_, updateFirst_no_match _ _ _ h,
    updateFirst_no_match _ _ _ h, updateFirst_no_match _ _ _ h⟩
  unfold deleteTodo
  rw [findIdx_no_match _ _ h]
  simp

/-- C7 witness: all five operations at an id absent from the collection. -/
theorem missing_id_noop_witness :
    toggleTodo "z" 9
        [{ id := "a", title := "T", completed := false,
           createdAt := 0, updatedAt := 0, editing := false }] =
      [{ id := "a", title := "T", completed := false,
         createdAt := 0, updatedAt := 0, editing := false }] ∧
    deleteTodo "z"
        [{ id := "a", title := "T", completed := false,
           createdAt := 0, updatedAt := 0, editing := false }] =
      [{ id := "a", title := "T", completed := false,
         createdAt := 0, updatedAt := 0, editing := false }] ∧
    startEdit "z"
        [{ id := "a", title := "T", completed := false,
           createdAt := 0, updatedAt := 0, editing := false }] =
      [{ id := "a", title := "T", completed := false,
         createdAt := 0, updatedAt := 0, editing := false }] ∧
    commitEdit "z" "v" 9
        [{ id := "a", title := "T", completed := false,
           createdAt := 0, updatedAt := 0, editing := false }] =
      [{ id := "a", title := "T", completed := false,
         createdAt := 0, updatedAt := 0, editing := false }] ∧
    cancelEdit "z"
        [{ id := "a", title := "T", completed := false,
           createdAt := 0, updatedAt := 0, editing := false }] =
      [{ id := "a", title := "T", completed := false,
         createdAt := 0, updatedAt := 0, editing := false }] :=
  missing_id_noop "z" "v" 9
    [{ id := "a", title := "T", completed := false,
       createdAt := 0, updatedAt := 0, editing := false }] (by decide)

/-- C8: `remainingCount + completedCount` equals the total task count; the
"all" projection is the whole collection; the "active" and "completed"
projections are disjoint and jointly cover every task. -/
theorem filter_partition_spec (todos : List Todo) :
    remainingCount todos + completedCount todos = todos.length ∧
    filtered .all todos = todos ∧
    (∀ t, t ∈ filtered .active todos → t ∉ filtered .completed todos) ∧
    (∀ t ∈ todos, t ∈ filtered .active todos ∨ t ∈ filtered .completed todos) := by
  refine ⟨?_, rfl, ?_, ?_⟩
  · unfold remainingCount completedCount
    induction todos with
    | nil => rfl
    | cons t ts ih =>
      by_cases hc : t.completed <;>
        simp [List.filter_cons, hc] <;> omega
  · intro t hmem hmem2
    simp only [filtered, List.mem_filter] at hmem hmem2
    rw [hmem2.2] at hmem
    exact absurd hmem.2 (by decide)
  · intro t ht
    by_cases hc : t.completed
    · right
      simp [filtered, List.mem_filter, ht, hc]
    · left
      simp [filtered, List.mem_filter, ht, hc]

/-- C8 witness: the partition at a two-task collection, one active and one
completed. -/
theorem filter_partition_spec_witness :
    remainingCount
        [{ id := "a", title := "x", completed := false,
           createdAt := 0, updatedAt := 0, editing := false },
         { id := "b", title := "y", completed := true,
           createdAt := 0, updatedAt := 0, editing := false }] +
      completedCount
        [{ id := "a", title := "x", completed := false,
           createdAt := 0, updatedAt := 0, editing := false },
         { id := "b", title := "y", completed := true,
           createdAt := 0, updatedAt := 0, editing := false }] = 2 ∧
    ({ id := "a", title := "x", completed := false,
       createdAt := 0, updatedAt := 0, editing := false } : Todo) ∉
      filtered .completed
        [{ id := "a", title := "x", completed := false,
           createdAt := 0, updatedAt := 0, editing := false },
         { id := "b", title := "y", completed := true,
           createdAt := 0, updatedAt := 0, editing := false }] ∧
    (({ id := "b", title := "y", completed := true,
        createdAt := 0, updatedAt := 0, editing := false } : Todo) ∈
      filtered .active
        [{ id := "a", title := "x", completed := false,
           createdAt := 0, updatedAt := 0, editing := false },
         { id := "b", title := "y", completed := true,
           createdAt := 0, updatedAt := 0, editing := false }] ∨
     ({ id := "b", title := "y", completed := true,
        createdAt := 0, updatedAt := 0, editing := false } : Todo) ∈
      filtered .completed
        [{ id := "a", title := "x", completed := false,
           createdAt := 0, updatedAt := 0, editing := false },
         { id := "b", title := "y", completed := true,
           createdAt := 0, updatedAt := 0, editing := false }]) :=
  ⟨(filter_partition_spec _).1,
   (filter_partition_spec _).2.2.1 _ (by decide),
   (filter_partition_spec _).2.2.2 _ (by decide)⟩

/-- C9: the persisted snapshot holds exactly the five durable fields per
task (by the shape of `StoredTodo` and `persistTodo`) and never the
editing flag, so any two collections agreeing pointwise on the durable
fields serialize to identical snapshots. -/
theorem snapshot_durable_only (todos1 todos2 : List Todo)
    (h : List.Forall₂ durableEq todos1 todos2) :
    persistSnapshot todos1 = persistSnapshot todos2 ∧
    (∀ (t : Todo) (b : Bool), persistTodo { t with editing := b } = persistTodo t) ∧
    (∀ t : Todo, persistTodo t =
      { id := t.id, title := t.title, completed := t.completed,
        createdAt := t.createdAt, updatedAt := t.updatedAt }) := by
  refine ⟨?_, fun t b => rfl, fun t => rfl⟩
  induction h with
  | nil => rfl
  | cons hd _ ih =>
    simp only [persistSnapshot, List.map_cons]
    simp only [persistSnapshot] at ih
    rw [ih]
    obtain ⟨e1, e2, e3, e4, e5⟩ := hd
    simp [persistTodo, e1, e2, e3, e4, e5]

/-- C9 witness: two collections differing only in the editing flag produce
the same snapshot. -/
theorem snapshot_durable_only_witness :
    persistSnapshot
        [{ id := "a", title := "x", completed := true,
           createdAt := 1, updatedAt := 2, editing := true }] =
      persistSnapshot
        [{ id := "a", title := "x", completed := true,
           createdAt := 1, updatedAt := 2, editing := false }] :=
  (snapshot_durable_only _ _
    (List.Forall₂.cons ⟨rfl, rfl, rfl, rfl, rfl⟩ List.Forall₂.nil)).1

/-- C10: each per-id mutation touches at most the first task whose id
matches: `toggleTodo` rewrites only that task's `completed` and
`updatedAt`; `commitEdit` rewrites only its `title`, `updatedAt` and
`editing`; `deleteTodo` removes exactly that one task.  The prefix `l1`,
the suffix `l2` (even if it contains further matches) and the relative
order survive untouched, and only `deleteTodo` changes the length, by
exactly one. -/
theorem frame_spec (l1 l2 : List Todo) (t : Todo) (id rawValue : String) (now : Nat)
    (h1 : ∀ u ∈ l1, (u.id == id) = false) (ht : t.id = id) :
    toggleTodo id now (l1 ++ t :: l2)
        = l1 ++ { t with completed := !t.completed, updatedAt := now } :: l2 ∧
    (toggleTodo id now (l1 ++ t :: l2)).length = (l1 ++ t :: l2).length ∧
    commitEdit id rawValue now (l1 ++ t :: l2)
        = l1 ++ stopEditTask true (some rawValue) now t :: l2 ∧
    (stopEditTask true (some rawValue) now t).id = t.id ∧
    (stopEditTask true (some rawValue) now t).completed = t.completed ∧
    (stopEditTask true (some rawValue) now t).createdAt = t.createdAt ∧
    (commitEdit id rawValue now (l1 ++ t :: l2)).length = (l1 ++ t :: l2).length ∧
    deleteTodo id (l1 ++ t :: l2) = l1 ++ l2 ∧
    (deleteTodo id (l1 ++ t :: l2)).length + 1 = (l1 ++ t :: l2).length := by
  have htb : (t.id == id) = true := by simp [ht]
  have etog : toggleTodo id now (l1 ++ t :: l2)
      = l1 ++ { t with completed := !t.completed, updatedAt := now } :: l2 := by
    unfold toggleTodo
    exact updateFirst_append _ _ _ _ _ h1 htb
  have ecommit : commitEdit id rawValue now (l1 ++ t :: l2)
      = l1 ++ stopEditTask true (some rawValue) now t :: l2 := by
    unfold commitEdit stopEdit
    exact updateFirst_append _ _ _ _ _ h1 htb
  have edel : deleteTodo id (l1 ++ t :: l2) = l1 ++ l2 := by
    unfold deleteTodo
    rw [findIdx_append_first _ _ _ _ h1 htb]
    rw [if_pos (by simp)]
    exact eraseIdx_append_middle _ _ _
  obtain ⟨f1, f2, f3⟩ := stopEditTask_frame (some rawValue) now t
  refine ⟨etog, ?_, ecommit, f1, f2, f3, ?_, edel, ?_⟩
  · rw [etog]; simp
  · rw [ecommit]; simp
  · rw [edel]; simp; omega

/-- C10 witness: a three-task collection whose last task shares the target
id — only the first match is touched, the duplicate behind it survives. -/
theorem frame_spec_witness :
    toggleTodo "a" 7
        [{ id := "b", title := "U", completed := true,
           createdAt := 3, updatedAt := 4, editing := false },
         { id := "a", title := "T", completed := false,
           createdAt := 0, updatedAt := 0, editing := false },
         { id := "a", title := "V", completed := true,
           createdAt := 5, updatedAt := 6, editing := false }] =
      [{ id := "b", title := "U", completed := true,
         createdAt := 3, updatedAt := 4, editing := false },
       { id := "a", title := "T", completed := true,
         createdAt := 0, updatedAt := 7, editing := false },
       { id := "a", title := "V", completed := true,
         createdAt := 5, updatedAt := 6, editing := false }] ∧
    deleteTodo "a"
        [{ id := "b", title := "U", completed := true,
           createdAt := 3, updatedAt := 4, editing := false },
         { id := "a", title := "T", completed := false,
           createdAt := 0, updatedAt := 0, editing := false },
         { id := "a", title := "V", completed := true,
           createdAt := 5, updatedAt := 6, editing := false }] =
      [{ id := "b", title := "U", completed := true,
         createdAt := 3, updatedAt := 4, editing := false },
       { id := "a", title := "V", completed := true,
         createdAt := 5, updatedAt := 6, editing := false }] ∧
    commitEdit "a" " W " 7
        [{ id := "b", title := "U", completed := true,
           createdAt := 3, updatedAt := 4, editing := false },
         { id := "a", title := "T", completed := false,
           createdAt := 0, updatedAt := 0, editing := false },
         { id := "a", title := "V", completed := true,
           createdAt := 5, updatedAt := 6, editing := false }] =
      [{ id := "b", title := "U", completed := true,
         createdAt := 3, updatedAt := 4, editing := false },
       { id := "a", title := "W", completed := false,
         createdAt := 0, updatedAt := 7, editing := false },
       { id := "a", title := "V", completed := true,
         createdAt := 5, updatedAt := 6, editing := false }] := by
  have h := frame_spec
    [{ id := "b", title := "U", completed := true,
       createdAt := 3, updatedAt := 4, editing := false }]
    [{ id := "a", title := "V", completed := true,
       createdAt := 5, updatedAt := 6, editing := false }]
    { id := "a", title := "T", completed := false,
      createdAt := 0, updatedAt := 0, editing := false }
    "a" " W " 7 (by decide) rfl
  refine ⟨h.1.trans (by decide), (h.2.2.2.2.2.2.2.1).trans (by decide),
    (h.2.2.1).trans (by decide)⟩

end TodoApp
